import Mathlib

/-!
Verification development for `tfs_git.py`, a bridge between a git working
branch and a TFS (centralized) workspace.

The Python source is shallowly embedded: pure string manipulation is
translated to functions on `List Char`, external processes (git, tf.exe,
the GUI) are oracle parameters, and Python exceptions are modelled with
`Except`.  Line numbers in the comments refer to `tfs_git.py`.
-/

/-- Python strings are modelled as lists of characters. -/
abbrev PyStr := List Char

/-- Python exceptions that the embedded code can raise. -/
inductive PyErr where
  | keyError
  | indexError
  | typeError
  | processFailure
  deriving DecidableEq

/-- Characters removed by Python's `str.strip()`. -/
def isPySpace (c : Char) : Bool :=
  c = ' ' || c = '\t' || c = '\n' || c = '\r' || c = '\x0b' || c = '\x0c'

/-- Python `s.strip()`: drop whitespace from both ends. -/
def pyStrip (s : PyStr) : PyStr :=
  ((s.dropWhile isPySpace).reverse.dropWhile isPySpace).reverse

/-- Helper for `pySplitNL`; the accumulator holds the current piece reversed. -/
def splitNLAux (acc : PyStr) : PyStr → List PyStr
  | [] => [acc.reverse]
  | c :: rest =>
    if c = '\n' then acc.reverse :: splitNLAux [] rest else splitNLAux (c :: acc) rest

/-- Python `output.split('\n')` as used at source line 169. -/
def pySplitNL (s : PyStr) : List PyStr := splitNLAux [] s

/-- Helper for `pySplitOnce`; splits at the first occurrence of `sep`. -/
def splitOnceAux (sep : Char) (acc : PyStr) : PyStr → List PyStr
  | [] => [acc.reverse]
  | c :: rest =>
    if c = sep then [acc.reverse, rest] else splitOnceAux sep (c :: acc) rest

/-- Python `line.split(sep, 1)`: at most one split, at the first occurrence. -/
def pySplitOnce (sep : Char) (s : PyStr) : List PyStr := splitOnceAux sep [] s

/-- Result of Python `tuple(path.split('->', 1))`: one or two components
(`split` with maxsplit 1 yields one part when no arrow occurs). -/
inductive Tup where
  | one (a : PyStr)
  | two (a b : PyStr)
  deriving DecidableEq

/-- Helper scanning for the first `->` occurrence (Python `path.split('->', 1)`). -/
def splitArrowAux (acc : PyStr) : PyStr → Tup
  | '-' :: '>' :: rest => Tup.two acc.reverse rest
  | c :: rest => splitArrowAux (c :: acc) rest
  | [] => Tup.one acc.reverse

/-- Source line 151: `tuple(x.strip() for x in path.split('->', 1))`. -/
def pySplitArrow (path : PyStr) : Tup :=
  match splitArrowAux [] path with
  | Tup.one a => Tup.one (pyStrip a)
  | Tup.two a b => Tup.two (pyStrip a) (pyStrip b)

/-- Indexing `x[1]` on such a tuple; a 1-tuple raises `IndexError`. -/
def Tup.snd : Tup → Except PyErr PyStr
  | Tup.two _ b => Except.ok b
  | Tup.one _ => Except.error PyErr.indexError

/-- Does the second list start with the first? -/
def leadsWith : PyStr → PyStr → Bool
  | [], _ => true
  | _ :: _, [] => false
  | x :: xs, y :: ys => x = y && leadsWith xs ys

/-- Python `hay.find(needle) >= 0`: substring occurrence. -/
def containsSub (needle : PyStr) : PyStr → Bool
  | [] => leadsWith needle []
  | c :: rest => leadsWith needle (c :: rest) || containsSub needle rest

/-- Python `s.endswith(sfx)`. -/
def trailsWith (sfx s : PyStr) : Bool := leadsWith sfx.reverse s.reverse

/-- Python `s.lower()` (ASCII case folding). -/
def pyLower (s : PyStr) : PyStr := s.map Char.toLower

/-- Model of `os.path.join(base, p)` on Windows (source line 320): append the
path separator unless the base is empty or already ends in one.  The case of an
absolute second argument is not modelled (never exercised by the claims). -/
def pyJoin (base p : PyStr) : PyStr :=
  match base.getLast? with
  | none => p
  | some c => if c = '\\' ∨ c = '/' ∨ c = ':' then base ++ p else base ++ '\\' :: p

/-- Python `set.add` on an insertion-ordered list model of a set. -/
def setInsert {α : Type} [DecidableEq α] (l : List α) (x : α) : List α :=
  if x ∈ l then l else l ++ [x]

/-- The `Status` object (source lines 94-153): six category containers plus the
base path.  Python sets are modelled as insertion-ordered duplicate-free lists;
renamed/copied entries are tuples. -/
structure Status where
  base_path : PyStr
  added : List PyStr
  modified : List PyStr
  copied : List Tup
  renamed : List Tup
  deleted : List PyStr
  untracked : List PyStr
  deriving DecidableEq

/-- Freshly constructed `Status` (source lines 102-112). -/
def Status.empty (basePath : PyStr) : Status := ⟨basePath, [], [], [], [], [], []⟩

/-- Source lines 138-139, `Status.__len__`: sum of the category cardinalities. -/
def Status.length (s : Status) : Nat :=
  s.added.length + s.modified.length + s.copied.length + s.renamed.length +
    s.deleted.length + s.untracked.length

/-- Source lines 148-153, `Status.add`: renamed/copied paths are converted to a
tuple first; then the status character is looked up in the operations
dictionary, raising `KeyError` when it is not one of the six keys. -/
def Status.add (st : Status) (c : Char) (path : PyStr) : Except PyErr Status :=
  if c = 'R' ∨ c = 'C' then
    let t := pySplitArrow path
    if c = 'R' then Except.ok { st with renamed := setInsert st.renamed t }
    else Except.ok { st with copied := setInsert st.copied t }
  else if c = 'A' then Except.ok { st with added := setInsert st.added path }
  else if c = 'M' then Except.ok { st with modified := setInsert st.modified path }
  else if c = 'D' then Except.ok { st with deleted := setInsert st.deleted path }
  else if c = '?' then Except.ok { st with untracked := setInsert st.untracked path }
  else Except.error PyErr.keyError

/-- The bare lines of one category section of `Status.__str__`. -/
def sectionLines (c : Char) (ps : List PyStr) : List PyStr := ps.map (fun p => c :: ' ' :: p)

/-- Text of one string-valued category section of `Status.__str__`
(source line 145: `status + u' ' + path + u'\n'` per entry). -/
def sectionText (c : Char) (ps : List PyStr) : PyStr :=
  ((sectionLines c ps).map (fun l => l ++ ['\n'])).flatten

/-- Text of a tuple-valued category section of `Status.__str__`: whenever the
category is non-empty, `status + u' ' + path` concatenates a string with a
tuple, which raises `TypeError` in Python. -/
def tupSectionText (ps : List Tup) : Except PyErr PyStr :=
  match ps with
  | [] => Except.ok []
  | _ => Except.error PyErr.typeError

/-- Source lines 141-146, `Status.__str__`.  The dictionary iteration order of
the Python 2 dict is unspecified; insertion order (A, M, C, R, D, ?) is used
here.  A non-empty tuple category raises `TypeError` under every order. -/
def Status.str (s : Status) : Except PyErr PyStr :=
  match tupSectionText s.copied, tupSectionText s.renamed with
  | Except.error e, _ => Except.error e
  | _, Except.error e => Except.error e
  | Except.ok csec, Except.ok rsec =>
    Except.ok (sectionText 'A' s.added ++ sectionText 'M' s.modified ++ csec ++ rsec ++
      sectionText 'D' s.deleted ++ sectionText '?' s.untracked)

/-- One iteration of the parsing loop of `Git.get_status` (source lines
172-177): strip the line, split once on a space, and when exactly two parts
result, add the first character of the status token with the stripped path. -/
def parseLine (st : Status) (raw : PyStr) : Except PyErr Status :=
  match pySplitOnce ' ' (pyStrip raw) with
  | [a, b] =>
    match pyStrip a with
    | [] => Except.error PyErr.indexError
    | c :: _ => st.add c (pyStrip b)
  | _ => Except.ok st

/-- The whole parsing loop of `Git.get_status`, propagating exceptions. -/
def parseLines : Status → List PyStr → Except PyErr Status
  | st, [] => Except.ok st
  | st, l :: rest =>
    match parseLine st l with
    | Except.error e => Except.error e
    | Except.ok st2 => parseLines st2 rest

/-- Parsing part of `Git.get_status` (source lines 167-179): split the command
output on newlines and feed every line to the loop. -/
def parseStatus (basePath : PyStr) (output : PyStr) : Except PyErr Status :=
  parseLines (Status.empty basePath) (pySplitNL output)

/-- Source line 300: marker required inside `.sln` files. -/
def slnMarker : PyStr := "GlobalSection(TeamFoundationVersionControl) = preSolution".toList

/-- Source line 309: marker required inside `.csproj` files. -/
def csprojMarker : PyStr := "<SccProjectName>SAK</SccProjectName>".toList

/-- Filter used at source line 324: `x.lower().endswith(".sln")`. -/
def isSlnPath (p : PyStr) : Bool := trailsWith ".sln".toList (pyLower p)

/-- Filter used at source line 327: `x.lower().endswith(".csproj")`. -/
def isCsprojPath (p : PyStr) : Bool := trailsWith ".csproj".toList (pyLower p)

/-- Source lines 296-303, `validate_solutions`: the file system is the oracle
`contents`; each missing marker is reported (second component) and flips the
result to `False`, without stopping the loop. -/
def validate_solutions (contents : PyStr → PyStr) (solutions : List PyStr) :
    Bool × List PyStr :=
  solutions.foldl
    (fun acc solution =>
      if containsSub slnMarker (contents solution) then acc else (false, acc.2 ++ [solution]))
    (true, [])

/-- Source lines 305-312, `validate_csprojects`: same loop, different marker. -/
def validate_csprojects (contents : PyStr → PyStr) (projects : List PyStr) :
    Bool × List PyStr :=
  projects.foldl
    (fun acc project =>
      if containsSub csprojMarker (contents project) then acc else (false, acc.2 ++ [project]))
    (true, [])

/-- Evaluation of the generator `x[1] for x in status.renamed | status.copied`
(source line 317): a 1-tuple raises `IndexError`. -/
def destsOf : List Tup → Except PyErr (List PyStr)
  | [] => Except.ok []
  | t :: rest =>
    match t.snd, destsOf rest with
    | Except.error e, _ => Except.error e
    | _, Except.error e => Except.error e
    | Except.ok d, Except.ok ds => Except.ok (d :: ds)

/-- Source lines 315-330, `validate`: collect the files to be checked in
(added, modified and rename/copy destinations, as a set), make them absolute,
validate solutions and projects, and conjoin the two results.  The second
component collects the reported violations. -/
def validate (contents : PyStr → PyStr) (s : Status) : Except PyErr (Bool × List PyStr) :=
  match destsOf (s.renamed ++ s.copied) with
  | Except.error e => Except.error e
  | Except.ok dests =>
    let all_files := (s.added ++ s.modified ++ dests).dedup
    let to_checkin := all_files.map (pyJoin s.base_path)
    let rs := validate_solutions contents (to_checkin.filter isSlnPath)
    let rp := validate_csprojects contents (to_checkin.filter isCsprojPath)
    Except.ok (rs.1 && rp.1, rs.2 ++ rp.2)

/-- Source line 69: sum of the character lengths of the fixed command prefix. -/
def baseLen (cmd : List String) : Nat := (cmd.map String.length).sum

/-- Inner loop of `ExternalCommand.run` (source lines 76-79): keep taking
arguments while some remain and the running length is below 1500; the length
check happens before an element is appended, so the last element may push the
total past 1500. -/
def fillChunk : Nat → List String → List String → List String × List String
  | _, chunk, [] => (chunk, [])
  | len, chunk, x :: rest =>
    if len < 1500 then fillChunk (len + x.length) (chunk ++ [x]) rest
    else (chunk, x :: rest)

/-- Outer loop of `ExternalCommand.run` (source lines 73-84), producing the
successive chunks of variable arguments.  `varArgs.pop()` removes the LAST
element of the Python list, so the loop consumes the reversed list from the
front; the fuel argument caps the iteration count (when the fixed prefix is
already 1500 characters or longer the Python loop never terminates). -/
def chunksAux (blen : Nat) : Nat → List String → List (List String)
  | 0, _ => []
  | _ + 1, [] => []
  | fuel + 1, v :: vs =>
    (fillChunk blen [] (v :: vs)).1 :: chunksAux blen fuel (fillChunk blen [] (v :: vs)).2

/-- The chunks of variable arguments emitted by one batched `run` call. -/
def chunks (blen : Nat) (varArgs : List String) : List (List String) :=
  chunksAux blen varArgs.length varArgs.reverse

/-- Source lines 60-85, `ExternalCommand.run`.  Process execution is the
oracle `exec`; exit codes are accumulated with `+` and outputs with string
concatenation, exactly as `code += result[0]; output += result[1]`. -/
def ExternalCommand.run (exec : List String → Int × String) (path : String)
    (args varArgs : List String) : Int × String :=
  let base_command := path :: args
  if varArgs = [] then exec base_command
  else
    (chunks (baseLen base_command) varArgs).foldl
      (fun acc chunk =>
        (acc.1 + (exec (base_command ++ chunk)).1, acc.2 ++ (exec (base_command ++ chunk)).2))
      (0, "")

/-- The command lines actually passed to `run_simple`, in invocation order. -/
def ExternalCommand.emitted (path : String) (args varArgs : List String) :
    List (List String) :=
  if varArgs = [] then [path :: args]
  else (chunks (baseLen (path :: args)) varArgs).map (fun chunk => (path :: args) ++ chunk)

/-- Source lines 87-92, `ExternalCommand.run_checked`: raise when the summed
code is non-zero, otherwise return the concatenated output. -/
def ExternalCommand.run_checked (exec : List String → Int × String) (path : String)
    (args varArgs : List String) : Except PyErr String :=
  let r := ExternalCommand.run exec path args varArgs
  if r.1 = 0 then Except.ok r.2 else Except.error PyErr.processFailure

/-- Process environment: a partial map from variable names to values. -/
abbrev EnvMap := String → Option String

/-- Source lines 253-256, `Tfs.checkin`: set `TFS_IGNORESTDOUTREDIRECT` to
`'1'` in the process environment, run `tf checkin` (the oracle `exec`, which
may read the environment), and return its exit code.  The environment is
returned so that its final state can be observed; the source never restores
the previous value. -/
def Tfs.checkin (exec : EnvMap → Int × String) (environ : EnvMap) : EnvMap × Int :=
  let environ2 : EnvMap := fun k => if k = "TFS_IGNORESTDOUTREDIRECT" then some "1" else environ k
  (environ2, (exec environ2).1)

/-- The integration branch name (source line 366). -/
def masterStr : PyStr := "master".toList

/-- Workspace-mutating steps and TFS operations performed by the push
protocol.  Read-only queries (branch name, status, file reads) and the GUI
dialog are not events. -/
inductive Event where
  | reset (hard : Bool)
  | clean
  | checkout (branch : PyStr) (force : Bool)
  | rebase (branch : PyStr)
  | merge (branch : PyStr) (squash : Bool)
  | tfsUndo
  | tfsAdd (paths : List PyStr)
  | tfsCopy (pairs : List Tup)
  | tfsCheckout (paths : List PyStr)
  | tfsRename (pairs : List Tup)
  | tfsDelete (paths : List PyStr)
  | tfsCheckin
  deriving DecidableEq

/-- Events that register state with TFS (the centralized system). -/
def isRegistration : Event → Bool
  | Event.tfsAdd _ => true
  | Event.tfsCopy _ => true
  | Event.tfsCheckout _ => true
  | Event.tfsRename _ => true
  | Event.tfsDelete _ => true
  | Event.tfsCheckin => true
  | _ => false

/-- Oracle inputs of one `push_to_tfs` run: the current branch name, the two
`check_changes` outcomes, the status computed after the squash merge, the file
contents consulted by `validate`, and the exit code of `tf checkin`. -/
structure PushEnv where
  branch : PyStr
  check1 : Bool
  check2 : Bool
  status : Status
  contents : PyStr → PyStr
  checkinCode : Int

/-- Source lines 361-452, `push_to_tfs`, as a function from the oracle inputs
to the exit code and the trace of workspace-mutating / TFS events, in program
order.  External commands are assumed to succeed (`run_checked` failures would
abort the run everywhere); exceptions escaping `validate` propagate. -/
def push_to_tfs (env : PushEnv) : Except PyErr (Int × List Event) :=
  if env.branch = masterStr then
    Except.ok (1, [])
  else if env.check1 = false then
    Except.ok (1, [])
  else
    let t1 : List Event := [Event.reset true, Event.clean, Event.rebase masterStr]
    if env.check2 = false then
      Except.ok (1, t1)
    else
      let t2 : List Event := t1 ++ [Event.checkout masterStr true, Event.tfsUndo,
        Event.reset true, Event.clean, Event.merge env.branch true]
      if env.status.length = 0 then
        Except.ok (0, t2 ++ [Event.checkout env.branch false, Event.reset true, Event.clean])
      else
        match validate env.contents env.status with
        | Except.error e => Except.error e
        | Except.ok (valid, _) =>
          if valid = false then
            Except.ok (1, t2 ++ [Event.checkout env.branch true, Event.reset true, Event.clean])
          else
            let pre : List Event := t2
              ++ (if env.status.added ≠ [] then [Event.tfsAdd env.status.added] else [])
              ++ (if env.status.copied ≠ [] then [Event.tfsCopy env.status.copied] else [])
              ++ (if env.status.modified ≠ [] then [Event.tfsCheckout env.status.modified] else [])
              ++ [Event.reset true, Event.clean]
              ++ (if env.status.renamed ≠ [] then [Event.tfsRename env.status.renamed] else [])
              ++ (if env.status.deleted ≠ [] then [Event.tfsDelete env.status.deleted] else [])
              ++ [Event.reset true, Event.clean, Event.merge env.branch false]
            let t3 := pre ++ [Event.tfsCheckin]
            if env.checkinCode = 0 then
              Except.ok (0, t3 ++ [Event.checkout env.branch false])
            else if env.checkinCode = 1 then
              Except.ok (0, t3 ++ [Event.checkout env.branch false])
            else
              Except.ok (1, t3)

/-- The event trace of a push whose post-squash-merge status is empty. -/
def noChangeTrace (branch : PyStr) : List Event :=
  [Event.reset true, Event.clean, Event.rebase masterStr, Event.checkout masterStr true,
   Event.tfsUndo, Event.reset true, Event.clean, Event.merge branch true,
   Event.checkout branch false, Event.reset true, Event.clean]

/-- The event trace of a push from the first workspace mutation up to and
including the final `tf checkin` (the bracketed suffix of `push_to_tfs` when
validation passes). -/
def checkinTrace (env : PushEnv) : List Event :=
  ([Event.reset true, Event.clean, Event.rebase masterStr, Event.checkout masterStr true,
    Event.tfsUndo, Event.reset true, Event.clean, Event.merge env.branch true]
   ++ (if env.status.added ≠ [] then [Event.tfsAdd env.status.added] else [])
   ++ (if env.status.copied ≠ [] then [Event.tfsCopy env.status.copied] else [])
   ++ (if env.status.modified ≠ [] then [Event.tfsCheckout env.status.modified] else [])
   ++ [Event.reset true, Event.clean]
   ++ (if env.status.renamed ≠ [] then [Event.tfsRename env.status.renamed] else [])
   ++ (if env.status.deleted ≠ [] then [Event.tfsDelete env.status.deleted] else [])
   ++ [Event.reset true, Event.clean, Event.merge env.branch false]) ++ [Event.tfsCheckin]

/-- Wellformedness of a path for the serialize/parse round trip: non-empty, no
newline, and no leading or trailing whitespace (Python sets cannot record the
difference anyway once `strip()` is applied during parsing). -/
def goodPath (p : PyStr) : Prop :=
  p ≠ [] ∧ '\n' ∉ p ∧ p.head?.all (fun c => !isPySpace c) = true ∧
    p.getLast?.all (fun c => !isPySpace c) = true

instance (p : PyStr) : Decidable (goodPath p) := by
  unfold goodPath; infer_instance

/-- An 800-character argument used to exhibit chunk overshoot. -/
def a800 : String := String.mk (List.replicate 800 'a')

/-- Another 800-character argument, distinct from `a800`. -/
def b800 : String := String.mk (List.replicate 800 'b')

/-- A 1499-character command path: the first variable argument then completes
a chunk on its own. -/
def p1499 : String := String.mk (List.replicate 1499 'p')

/-- Oracle returning exit code 1 for the sub-invocation carrying `b` and
-1 for every other one. -/
def execComp : List String → Int × String := fun cmd => if "b" ∈ cmd then (1, "") else (-1, "")

/-- Oracle for `Tfs.checkin` that always succeeds. -/
def execNull : EnvMap → Int × String := fun _ => (0, "")

/-- Process environment with no varArgs set. -/
def environNone : EnvMap := fun _ => none

/-- Status holding one renamed pair, for the round-trip counterexample. -/
def statusRen : Status := ⟨[], [], [], [], [Tup.two "old.txt".toList "new.txt".toList], [], []⟩

/-- Status holding one added source file (no solution/project files). -/
def statusCS : Status := ⟨[], ["x.cs".toList], [], [], [], [], []⟩

/-- Status with a bound solution and an unbound project destination. -/
def statusMix : Status :=
  ⟨[], ["a.sln".toList], [], [], [Tup.two "x.txt".toList "b.csproj".toList], [], []⟩

/-- File contents oracle: only `a.sln` carries its marker. -/
def contentsMix : PyStr → PyStr := fun p => if p = "a.sln".toList then slnMarker else []

/-- File contents oracle: every file is empty. -/
def contentsNone : PyStr → PyStr := fun _ => []

/-- Concrete wellformed status without renamed/copied entries. -/
def statusRT : Status :=
  ⟨"w".toList, ["a.txt".toList, "a b.txt".toList], ["m.txt".toList], [], [],
   ["d.txt".toList], ["u.txt".toList]⟩

/-- Push oracle inputs with the integration branch checked out. -/
def envMaster : PushEnv := ⟨masterStr, true, true, Status.empty [], contentsNone, 0⟩

/-- Push oracle inputs on a working branch with an empty post-merge status. -/
def envDevEmpty : PushEnv := ⟨"dev".toList, true, true, Status.empty [], contentsNone, 0⟩

/-- Push oracle inputs on a working branch with one added file and an
ambiguous check-in exit code. -/
def envDevFull : PushEnv := ⟨"dev".toList, true, true, statusCS, contentsNone, 5⟩

set_option maxRecDepth 10000

theorem str_append_empty (s : String) : s ++ "" = s := by
  cases s with
  | mk d => show String.mk (d ++ []) = String.mk d; rw [List.append_nil]

theorem str_empty_append (s : String) : "" ++ s = s := by
  cases s with
  | mk d => show String.mk ([] ++ d) = String.mk d; rw [List.nil_append]

theorem str_append_assoc (a b c : String) : a ++ b ++ c = a ++ (b ++ c) := by
  cases a with
  | mk x =>
    cases b with
    | mk y =>
      cases c with
      | mk z => show String.mk (x ++ y ++ z) = String.mk (x ++ (y ++ z)); rw [List.append_assoc]

theorem run_foldl (exec : List String → Int × String) (base : List String)
    (cs : List (List String)) : ∀ (c0 : Int) (o0 : String),
    cs.foldl
      (fun acc chunk =>
        (acc.1 + (exec (base ++ chunk)).1, acc.2 ++ (exec (base ++ chunk)).2))
      (c0, o0) =
    (c0 + (cs.map (fun chunk => (exec (base ++ chunk)).1)).sum,
     o0 ++ (cs.map (fun chunk => (exec (base ++ chunk)).2)).foldr (· ++ ·) "") := by
  induction cs with
  | nil => intro c0 o0; simp [str_append_empty]
  | cons ch t ih =>
    intro c0 o0
    simp only [List.foldl_cons, List.map_cons, List.sum_cons, List.foldr_cons, ih]
    rw [Int.add_assoc, str_append_assoc]

theorem fillChunk_decomp (vs : List String) : ∀ (len : Nat) (chunk : List String),
    ∃ t r, fillChunk len chunk vs = (chunk ++ t, r) ∧ vs = t ++ r := by
  induction vs with
  | nil => intro len chunk; exact ⟨[], [], by simp [fillChunk], by simp⟩
  | cons x rest ih =>
    intro len chunk
    by_cases h : len < 1500
    · obtain ⟨t, r, h1, h2⟩ := ih (len + x.length) (chunk ++ [x])
      refine ⟨x :: t, r, ?_, ?_⟩
      · simpa [fillChunk, h] using h1
      · simp [h2]
    · exact ⟨[], x :: rest, by simp [fillChunk, h], by simp⟩

theorem fillChunk_rest_le (vs : List String) : ∀ (len : Nat) (chunk : List String),
    (fillChunk len chunk vs).2.length ≤ vs.length := by
  induction vs with
  | nil => intro len chunk; simp [fillChunk]
  | cons x rest ih =>
    intro len chunk
    by_cases h : len < 1500
    · simp only [fillChunk, h, if_true]
      exact Nat.le_succ_of_le (ih (len + x.length) (chunk ++ [x]))
    · simp [fillChunk, h]

theorem fillChunk_bound (vs : List String) : ∀ (len blen : Nat) (chunk : List String),
    len = blen + (chunk.map String.length).sum →
    (chunk = [] ∨ blen + (chunk.dropLast.map String.length).sum < 1500) →
    ((fillChunk len chunk vs).1 = [] ∨
      blen + ((fillChunk len chunk vs).1.dropLast.map String.length).sum < 1500) := by
  induction vs with
  | nil => intro len blen chunk h1 h2; simpa [fillChunk] using h2
  | cons x rest ih =>
    intro len blen chunk h1 h2
    by_cases h : len < 1500
    · simp only [fillChunk, h, if_true]
      refine ih (len + x.length) blen (chunk ++ [x]) ?_ ?_
      · simp [h1, Nat.add_assoc]
      · right
        rw [List.dropLast_concat]
        omega
    · simpa [fillChunk, h] using h2

theorem fillChunk_ne_nil (blen : Nat) (hb : blen < 1500) (v : String) (vs : List String) :
    (fillChunk blen [] (v :: vs)).1 ≠ [] := by
  obtain ⟨t, r, h1, _⟩ := fillChunk_decomp vs (blen + v.length) [v]
  simp only [fillChunk, hb, if_true, List.nil_append]
  rw [h1]
  simp

theorem fillChunk_progress (blen : Nat) (hb : blen < 1500) (v : String) (vs : List String) :
    (fillChunk blen [] (v :: vs)).2.length ≤ vs.length := by
  simp only [fillChunk, hb, if_true]
  exact fillChunk_rest_le vs (blen + v.length) ([] ++ [v])

theorem chunksAux_flatten (blen : Nat) (hb : blen < 1500) : ∀ (fuel : Nat) (vs : List String),
    vs.length ≤ fuel → (chunksAux blen fuel vs).flatten = vs := by
  intro fuel
  induction fuel with
  | zero =>
    intro vs hvs
    rw [List.length_eq_zero.mp (Nat.le_zero.mp hvs)]
    simp [chunksAux]
  | succ fuel ih =>
    intro vs hvs
    cases vs with
    | nil => simp [chunksAux]
    | cons v rest =>
      simp only [chunksAux, List.flatten_cons]
      obtain ⟨t, r, h1, h2⟩ := fillChunk_decomp rest (blen + v.length) ([] ++ [v])
      have hfill : fillChunk blen [] (v :: rest) = ([] ++ [v] ++ t, r) := by
        simp only [fillChunk, hb, if_true]; exact h1
      have hrest : (fillChunk blen [] (v :: rest)).2.length ≤ rest.length :=
        fillChunk_progress blen hb v rest
      rw [ih (fillChunk blen [] (v :: rest)).2 (by
        simp only [List.length_cons] at hvs
        omega)]
      rw [hfill]
      simp [h2]

theorem chunksAux_chunk_spec (blen : Nat) (hb : blen < 1500) : ∀ (fuel : Nat)
    (vs : List String) (c : List String), c ∈ chunksAux blen fuel vs →
    c ≠ [] ∧ blen + (c.dropLast.map String.length).sum < 1500 := by
  intro fuel
  induction fuel with
  | zero => intro vs c hc; simp [chunksAux] at hc
  | succ fuel ih =>
    intro vs c hc
    cases vs with
    | nil => simp [chunksAux] at hc
    | cons v rest =>
      simp only [chunksAux, List.mem_cons] at hc
      rcases hc with rfl | hc
      · refine ⟨fillChunk_ne_nil blen hb v rest, ?_⟩
        have := fillChunk_bound (v :: rest) blen blen [] (by simp) (Or.inl rfl)
        rcases this with h | h
        · exact absurd h (fillChunk_ne_nil blen hb v rest)
        · exact h
      · exact ih _ c hc

/-- Claim C5 (amended).  For every non-empty variable-argument list (and a
fixed prefix shorter than the 1500-character threshold, without which the
source loops forever), the chunks consumed by `run` cover the input exactly
once with no duplication or loss, but in REVERSE order (`variables.pop()`
takes from the end of the list); every chunk is non-empty, and a new chunk is
started only once the running length (prefix plus the chunk elements before
the last one) has reached 1500 — so a chunk may overshoot 1500 by the length
of its final element. -/
theorem C5_batching_amended (path : String) (args varArgs : List String)
    (hv : varArgs ≠ []) (hb : baseLen (path :: args) < 1500) :
    (chunks (baseLen (path :: args)) varArgs).flatten = varArgs.reverse ∧
    ((chunks (baseLen (path :: args)) varArgs).flatten).Perm varArgs ∧
    (∀ c ∈ chunks (baseLen (path :: args)) varArgs,
      c ≠ [] ∧ baseLen (path :: args) + (c.dropLast.map String.length).sum < 1500) ∧
    ExternalCommand.emitted path args varArgs =
      (chunks (baseLen (path :: args)) varArgs).map (fun chunk => (path :: args) ++ chunk) := by
  have h1 : (chunks (baseLen (path :: args)) varArgs).flatten = varArgs.reverse :=
    chunksAux_flatten (baseLen (path :: args)) hb varArgs.length varArgs.reverse
      (by rw [List.length_reverse])
  refine ⟨h1, ?_, ?_, ?_⟩
  · rw [h1]; exact List.reverse_perm varArgs
  · intro c hc
    exact chunksAux_chunk_spec (baseLen (path :: args)) hb varArgs.length varArgs.reverse c hc
  · simp [ExternalCommand.emitted, hv]

/-- Witness for C5_batching_amended at a concrete input. -/
theorem C5_batching_witness :
    (chunks (baseLen ["p"]) ["a", "b"]).flatten = (["a", "b"] : List String).reverse ∧
    ((chunks (baseLen ["p"]) ["a", "b"]).flatten).Perm ["a", "b"] ∧
    (∀ c ∈ chunks (baseLen ["p"]) ["a", "b"],
      c ≠ [] ∧ baseLen ["p"] + (c.dropLast.map String.length).sum < 1500) ∧
    ExternalCommand.emitted "p" [] ["a", "b"] =
      (chunks (baseLen ["p"]) ["a", "b"]).map (fun chunk => (["p"] : List String) ++ chunk) :=
  C5_batching_amended "p" [] ["a", "b"] (by decide) (by decide)

/-- Counterexample to claim C5 as stated: with fixed prefix `["p"]` and
variable arguments `["a", "b"]` the single emitted chunk is `["b", "a"]`, not
a succession of order-preserving pieces of the input (their concatenation
would have to be `["a", "b"]`); and with two 800-character arguments the
single emitted chunk has cumulative length 1601 > 1500 even though it holds
two arguments, so the overshoot is not forced by the one-argument minimum. -/
theorem C5_batching_counterexample :
    (chunks (baseLen ["p"]) ["a", "b"]).flatten ≠ ["a", "b"] ∧
    (chunks (baseLen ["p"]) ["a", "b"]).flatten = ["b", "a"] ∧
    chunks (baseLen ["p"]) [a800, b800] = [[b800, a800]] ∧
    2 ≤ ([b800, a800] : List String).length ∧
    1500 < baseLen ["p"] + (([b800, a800] : List String).map String.length).sum :=
  ⟨by decide, rfl, rfl, by decide, by decide⟩

/-- Claim C6.  The result of a `run` is the arithmetic SUM of the exit codes
of the emitted sub-invocations together with the concatenation of their
outputs in invocation order; `run_checked` fails exactly when that sum is
non-zero; consequently two sub-invocations with compensating codes 1 and -1
are misreported as success (last conjunct, at a concrete input). -/
theorem C6_sum_and_concat :
    (∀ (exec : List String → Int × String) (path : String) (args varArgs : List String),
      ExternalCommand.run exec path args varArgs =
        (((ExternalCommand.emitted path args varArgs).map (fun c => (exec c).1)).sum,
         ((ExternalCommand.emitted path args varArgs).map (fun c => (exec c).2)).foldr
           (· ++ ·) "")) ∧
    (∀ (exec : List String → Int × String) (path : String) (args varArgs : List String),
      ExternalCommand.run_checked exec path args varArgs =
        if ((ExternalCommand.emitted path args varArgs).map (fun c => (exec c).1)).sum = 0
        then Except.ok
          (((ExternalCommand.emitted path args varArgs).map (fun c => (exec c).2)).foldr
            (· ++ ·) "")
        else Except.error PyErr.processFailure) ∧
    ExternalCommand.emitted p1499 [] ["a", "b"] = [[p1499, "b"], [p1499, "a"]] ∧
    execComp [p1499, "b"] = (1, "") ∧ execComp [p1499, "a"] = (-1, "") ∧
    ExternalCommand.run_checked execComp p1499 [] ["a", "b"] = Except.ok "" := by
  have hrun : ∀ (exec : List String → Int × String) (path : String) (args varArgs : List String),
      ExternalCommand.run exec path args varArgs =
        (((ExternalCommand.emitted path args varArgs).map (fun c => (exec c).1)).sum,
         ((ExternalCommand.emitted path args varArgs).map (fun c => (exec c).2)).foldr
           (· ++ ·) "") := by
    intro exec path args varArgs
    by_cases hv : varArgs = []
    · simp [ExternalCommand.run, ExternalCommand.emitted, hv, str_append_empty]
    · simp only [ExternalCommand.run, ExternalCommand.emitted, hv, if_neg, if_false]
      rw [run_foldl]
      simp [List.map_map, Function.comp_def, str_empty_append]
  refine ⟨hrun, ?_, rfl, rfl, rfl, rfl⟩
  intro exec path args varArgs
  simp only [ExternalCommand.run_checked, hrun]

theorem validate_files_foldl (marker : PyStr) (contents : PyStr → PyStr)
    (files : List PyStr) : ∀ (b0 : Bool) (e0 : List PyStr),
    files.foldl
      (fun acc f =>
        if containsSub marker (contents f) then acc else (false, acc.2 ++ [f]))
      (b0, e0) =
    (b0 && files.all (fun f => containsSub marker (contents f)),
     e0 ++ files.filter (fun f => !(containsSub marker (contents f)))) := by
  induction files with
  | nil => intro b0 e0; simp
  | cons f t ih =>
    intro b0 e0
    by_cases h : containsSub marker (contents f) = true
    · simp [List.foldl_cons, h, ih, List.filter_cons]
    · simp only [Bool.not_eq_true] at h
      simp [List.foldl_cons, h, ih, List.filter_cons, Bool.and_assoc, List.append_assoc]

theorem validate_solutions_spec (contents : PyStr → PyStr) (files : List PyStr) :
    validate_solutions contents files =
      (files.all (fun f => containsSub slnMarker (contents f)),
       files.filter (fun f => !(containsSub slnMarker (contents f)))) := by
  unfold validate_solutions
  rw [validate_files_foldl]
  simp

theorem validate_csprojects_spec (contents : PyStr → PyStr) (files : List PyStr) :
    validate_csprojects contents files =
      (files.all (fun f => containsSub csprojMarker (contents f)),
       files.filter (fun f => !(containsSub csprojMarker (contents f)))) := by
  unfold validate_csprojects
  rw [validate_files_foldl]
  simp

/-- Claim C1.  `validate` returns true if and only if every registered file
(added, modified, or a rename/copy destination) that ends in `.sln` contains
the solution marker and every such file ending in `.csproj` contains the
project marker; the reported violations are exactly the files missing their
marker — all of them, with no short-circuit after the first failure. -/
theorem C1_validate_characterization (contents : PyStr → PyStr) (s : Status)
    (dests : List PyStr) (hd : destsOf (s.renamed ++ s.copied) = Except.ok dests) :
    ∃ b errs, validate contents s = Except.ok (b, errs) ∧
      (b = true ↔
        ((∀ p ∈ (((s.added ++ s.modified ++ dests).dedup).map (pyJoin s.base_path)).filter
              isSlnPath, containsSub slnMarker (contents p) = true) ∧
         (∀ p ∈ (((s.added ++ s.modified ++ dests).dedup).map (pyJoin s.base_path)).filter
              isCsprojPath, containsSub csprojMarker (contents p) = true))) ∧
      errs =
        ((((s.added ++ s.modified ++ dests).dedup).map (pyJoin s.base_path)).filter
            isSlnPath).filter (fun p => !(containsSub slnMarker (contents p))) ++
        ((((s.added ++ s.modified ++ dests).dedup).map (pyJoin s.base_path)).filter
            isCsprojPath).filter (fun p => !(containsSub csprojMarker (contents p))) := by
  simp only [validate, hd]
  rw [validate_solutions_spec, validate_csprojects_spec]
  refine ⟨_, _, rfl, ?_, rfl⟩
  have hbool : ∀ (b : Bool) (P : Prop), (b = false ∨ P) ↔ (b = true → P) := by
    intro b P; cases b <;> simp
  simp [List.all_eq_true, Bool.and_eq_true, hbool]

/-- Witness for C1_validate_characterization: one bound solution file passes,
one unbound rename-destination project file is the only reported violation. -/
theorem C1_validate_witness :
    ∃ b errs, validate contentsMix statusMix = Except.ok (b, errs) ∧
      (b = true ↔
        ((∀ p ∈ (((statusMix.added ++ statusMix.modified ++ ["b.csproj".toList]).dedup).map
              (pyJoin statusMix.base_path)).filter isSlnPath,
            containsSub slnMarker (contentsMix p) = true) ∧
         (∀ p ∈ (((statusMix.added ++ statusMix.modified ++ ["b.csproj".toList]).dedup).map
              (pyJoin statusMix.base_path)).filter isCsprojPath,
            containsSub csprojMarker (contentsMix p) = true))) ∧
      errs =
        ((((statusMix.added ++ statusMix.modified ++ ["b.csproj".toList]).dedup).map
            (pyJoin statusMix.base_path)).filter isSlnPath).filter
          (fun p => !(containsSub slnMarker (contentsMix p))) ++
        ((((statusMix.added ++ statusMix.modified ++ ["b.csproj".toList]).dedup).map
            (pyJoin statusMix.base_path)).filter isCsprojPath).filter
          (fun p => !(containsSub csprojMarker (contentsMix p))) :=
  C1_validate_characterization contentsMix statusMix ["b.csproj".toList] rfl

/-- Claim C2.  When the current branch is the integration branch, push returns
the failure code 1 immediately and its event trace is empty: no reset, clean,
checkout, rebase, merge or TFS operation is invoked. -/
theorem C2_push_on_master (env : PushEnv) (h : env.branch = masterStr) :
    push_to_tfs env = Except.ok (1, ([] : List Event)) := by
  simp [push_to_tfs, h]

/-- Witness for C2_push_on_master. -/
theorem C2_push_on_master_witness :
    push_to_tfs envMaster = Except.ok (1, ([] : List Event)) :=
  C2_push_on_master envMaster rfl

/-- Claim C3.  A push whose post-squash-merge status is empty returns success
(0) with a trace that ends by restoring the original branch and resetting and
cleaning the workspace, and that contains no TFS registration operation (in
particular no check-in). -/
theorem C3_empty_status_push (env : PushEnv) (hb : env.branch ≠ masterStr)
    (h1 : env.check1 = true) (h2 : env.check2 = true) (hs : env.status.length = 0) :
    push_to_tfs env = Except.ok (0, noChangeTrace env.branch) ∧
    (∀ e ∈ noChangeTrace env.branch, isRegistration e = false) ∧
    (noChangeTrace env.branch).drop 8 =
      [Event.checkout env.branch false, Event.reset true, Event.clean] := by
  refine ⟨?_, ?_, rfl⟩
  · simp [push_to_tfs, hb, h1, h2, hs, noChangeTrace]
  · intro e he
    simp only [noChangeTrace, List.mem_cons, List.not_mem_nil, or_false] at he
    rcases he with rfl | rfl | rfl | rfl | rfl | rfl | rfl | rfl | rfl | rfl | rfl
    all_goals rfl

/-- Witness for C3_empty_status_push. -/
theorem C3_empty_status_witness :
    push_to_tfs envDevEmpty = Except.ok (0, noChangeTrace envDevEmpty.branch) ∧
    (∀ e ∈ noChangeTrace envDevEmpty.branch, isRegistration e = false) ∧
    (noChangeTrace envDevEmpty.branch).drop 8 =
      [Event.checkout envDevEmpty.branch false, Event.reset true, Event.clean] :=
  C3_empty_status_push envDevEmpty (by decide) rfl rfl rfl

/-- Claim C4.  After the final check-in: exit code 0 restores the original
branch and push returns 0; exit code 1 (no TFS-relevant changes) also restores
the original branch and returns 0; every other exit code returns the failure
code 1 with a trace ending at the check-in itself — the integration branch is
left checked out (no restoring checkout follows). -/
theorem C4_checkin_classification (env : PushEnv) (hb : env.branch ≠ masterStr)
    (h1 : env.check1 = true) (h2 : env.check2 = true) (hs : env.status.length ≠ 0)
    (hv : ∃ errs, validate env.contents env.status = Except.ok (true, errs)) :
    ((env.checkinCode = 0 ∨ env.checkinCode = 1) →
      push_to_tfs env =
        Except.ok (0, checkinTrace env ++ [Event.checkout env.branch false]) ∧
      (checkinTrace env ++ [Event.checkout env.branch false]).getLast? =
        some (Event.checkout env.branch false)) ∧
    ((env.checkinCode ≠ 0 ∧ env.checkinCode ≠ 1) →
      push_to_tfs env = Except.ok (1, checkinTrace env) ∧
      (checkinTrace env).getLast? = some Event.tfsCheckin) := by
  obtain ⟨errs, hval⟩ := hv
  constructor
  · rintro (h0 | h01)
    · exact ⟨by simp [push_to_tfs, checkinTrace, hb, h1, h2, hs, hval, h0],
        List.getLast?_concat _⟩
    · refine ⟨?_, List.getLast?_concat _⟩
      have hne : env.checkinCode ≠ 0 := by rw [h01]; decide
      simp [push_to_tfs, checkinTrace, hb, h1, h2, hs, hval, h01, hne]
  · rintro ⟨hne0, hne1⟩
    refine ⟨?_, ?_⟩
    · simp [push_to_tfs, checkinTrace, hb, h1, h2, hs, hval, hne0, hne1]
    · unfold checkinTrace
      exact List.getLast?_concat _

/-- Witness for C4_checkin_classification, with an ambiguous exit code 5. -/
theorem C4_checkin_witness :
    ((envDevFull.checkinCode = 0 ∨ envDevFull.checkinCode = 1) →
      push_to_tfs envDevFull =
        Except.ok (0, checkinTrace envDevFull ++ [Event.checkout envDevFull.branch false]) ∧
      (checkinTrace envDevFull ++ [Event.checkout envDevFull.branch false]).getLast? =
        some (Event.checkout envDevFull.branch false)) ∧
    ((envDevFull.checkinCode ≠ 0 ∧ envDevFull.checkinCode ≠ 1) →
      push_to_tfs envDevFull = Except.ok (1, checkinTrace envDevFull) ∧
      (checkinTrace envDevFull).getLast? = some Event.tfsCheckin) :=
  C4_checkin_classification envDevFull (by decide) rfl rfl (by decide) ⟨[], rfl⟩

/-- Claim C8.  The status report `A foo.txt` / `R100 old.txt -> new.txt`
parses to added containing exactly `foo.txt`, renamed containing exactly the
pair (old.txt, new.txt), all other categories empty, and total length 2. -/
theorem C8_parse_example :
    parseStatus [] ("A foo.txt\nR100 old.txt -> new.txt").toList =
      Except.ok ⟨[], ["foo.txt".toList], [], [],
        [Tup.two "old.txt".toList "new.txt".toList], [], []⟩ ∧
    Status.length ⟨[], ["foo.txt".toList], [], [],
      [Tup.two "old.txt".toList "new.txt".toList], [], []⟩ = 2 :=
  ⟨rfl, rfl⟩

theorem pySplitOnce_shape (sep : Char) (s : PyStr) :
    (∃ a, pySplitOnce sep s = [a]) ∨ (∃ a b, pySplitOnce sep s = [a, b]) := by
  unfold pySplitOnce
  generalize ([] : PyStr) = acc
  induction s generalizing acc with
  | nil => exact Or.inl ⟨acc.reverse, rfl⟩
  | cons c rest ih =>
    by_cases h : c = sep
    · exact Or.inr ⟨acc.reverse, rest, by simp [splitOnceAux, h]⟩
    · simpa [splitOnceAux, h] using ih (c :: acc)

/-- Claim C10.  A line that splits into exactly two parts but whose status
token starts with a character outside the six dictionary keys makes parsing
raise the dictionary `KeyError`; a line that does not split into exactly two
parts is silently skipped. -/
theorem C10_unknown_status_char (st : Status) (raw : PyStr) :
    ((∃ tok rest, pySplitOnce ' ' (pyStrip raw) = [tok, rest] ∧
        ∃ c cs, pyStrip tok = c :: cs ∧
          c ∉ (['A', 'M', 'C', 'R', 'D', '?'] : List Char)) →
      parseLine st raw = Except.error PyErr.keyError) ∧
    ((pySplitOnce ' ' (pyStrip raw)).length ≠ 2 → parseLine st raw = Except.ok st) := by
  constructor
  · rintro ⟨tok, rest, hsplit, c, cs, htok, hc⟩
    simp only [List.mem_cons, List.not_mem_nil, or_false, not_or] at hc
    obtain ⟨hA, hM, hC, hR, hD, hQ⟩ := hc
    simp [parseLine, hsplit, htok, Status.add, hA, hM, hC, hR, hD, hQ]
  · intro hlen
    rcases pySplitOnce_shape ' ' (pyStrip raw) with ⟨a, ha⟩ | ⟨a, b, hab⟩
    · simp [parseLine, ha]
    · rw [hab] at hlen; simp at hlen

/-- Witness for C10_unknown_status_char: the line `X foo.txt` raises the key
miss, the one-part line `Xfoo` is skipped. -/
theorem C10_unknown_status_char_witness :
    parseLine (Status.empty []) ("X foo.txt").toList = Except.error PyErr.keyError ∧
    parseLine (Status.empty []) ("Xfoo").toList = Except.ok (Status.empty []) :=
  ⟨(C10_unknown_status_char (Status.empty []) ("X foo.txt").toList).1
     ⟨"X".toList, "foo.txt".toList, by decide, 'X', [], by decide, by decide⟩,
   (C10_unknown_status_char (Status.empty []) ("Xfoo").toList).2 (by decide)⟩

/-- Claim C9 (amended).  `Tfs.checkin` sets `TFS_IGNORESTDOUTREDIRECT` to
`'1'` before the check-in call and this setting PERSISTS after the call (the
source never restores the previous value; the mutation is process-global);
no other environment variable is modified. -/
theorem C9_env_persists (exec : EnvMap → Int × String) (environ : EnvMap) :
    (Tfs.checkin exec environ).1 "TFS_IGNORESTDOUTREDIRECT" = some "1" ∧
    ∀ k, k ≠ "TFS_IGNORESTDOUTREDIRECT" → (Tfs.checkin exec environ).1 k = environ k := by
  constructor
  · simp [Tfs.checkin]
  · intro k hk; simp [Tfs.checkin, hk]

/-- Witness for C9_env_persists. -/
theorem C9_env_witness :
    (Tfs.checkin execNull environNone).1 "TFS_IGNORESTDOUTREDIRECT" = some "1" ∧
    (Tfs.checkin execNull environNone).1 "PATH" = environNone "PATH" :=
  ⟨(C9_env_persists execNull environNone).1,
   (C9_env_persists execNull environNone).2 "PATH" (by decide)⟩

/-- Counterexample to claim C9 as stated: starting from an environment in which
the variable is unset, after `Tfs.checkin` returns the environment still maps
`TFS_IGNORESTDOUTREDIRECT` to `'1'` — it is not restored to its prior state. -/
theorem C9_env_counterexample :
    (Tfs.checkin execNull environNone).1 "TFS_IGNORESTDOUTREDIRECT" ≠
      environNone "TFS_IGNORESTDOUTREDIRECT" := by
  decide

theorem dropWhile_eq_self_of_head (l : PyStr)
    (h : l.head?.all (fun c => !isPySpace c) = true) : l.dropWhile isPySpace = l := by
  cases l with
  | nil => rfl
  | cons c t =>
    simp only [List.head?_cons, Option.all, Bool.not_eq_true'] at h
    simp [List.dropWhile_cons, h]

theorem pyStrip_eq_self (l : PyStr)
    (h1 : l.head?.all (fun c => !isPySpace c) = true)
    (h2 : l.getLast?.all (fun c => !isPySpace c) = true) : pyStrip l = l := by
  unfold pyStrip
  rw [dropWhile_eq_self_of_head l h1]
  rw [dropWhile_eq_self_of_head l.reverse (by rwa [List.head?_reverse])]
  exact List.reverse_reverse l

theorem splitNLAux_line : ∀ (l : PyStr), '\n' ∉ l → ∀ (acc rest : PyStr),
    splitNLAux acc (l ++ '\n' :: rest) = (acc.reverse ++ l) :: splitNLAux [] rest := by
  intro l
  induction l with
  | nil => intro _ acc rest; simp [splitNLAux]
  | cons c t ih =>
    intro h acc rest
    have hc : ¬(c = '\n') := by rintro rfl; exact h (List.mem_cons_self _ _)
    have ht : '\n' ∉ t := fun hm => h (List.mem_cons_of_mem _ hm)
    simp only [List.cons_append, splitNLAux, hc, if_false, List.append_eq]
    rw [ih ht (c :: acc) rest]
    simp

theorem splitNL_flatten : ∀ (lines : List PyStr), (∀ l ∈ lines, '\n' ∉ l) →
    splitNLAux [] ((lines.map (fun l => l ++ ['\n'])).flatten) = lines ++ [[]] := by
  intro lines
  induction lines with
  | nil => intro _; simp [splitNLAux]
  | cons l t ih =>
    intro h
    simp only [List.map_cons, List.flatten_cons]
    have harr : (l ++ ['\n']) ++ (t.map (fun x => x ++ ['\n'])).flatten =
        l ++ '\n' :: (t.map (fun x => x ++ ['\n'])).flatten := by
      simp [List.append_assoc]
    rw [harr, splitNLAux_line l (h l (List.mem_cons_self _ _)) [] _,
      ih (fun x hx => h x (List.mem_cons_of_mem _ hx))]
    simp

theorem parseLine_nil (st : Status) : parseLine st [] = Except.ok st := rfl

theorem parseLine_cat (st : Status) (c : Char) (p : PyStr)
    (hc : isPySpace c = false) (hp : goodPath p) :
    parseLine st (c :: ' ' :: p) = st.add c p := by
  obtain ⟨hne, hnl, hh, hl⟩ := hp
  have hcs : ¬(c = ' ') := by rintro rfl; simp [isPySpace] at hc
  have hstrip : pyStrip (c :: ' ' :: p) = c :: ' ' :: p := by
    apply pyStrip_eq_self
    · simp [Option.all, hc]
    · cases p with
      | nil => exact absurd rfl hne
      | cons q qs =>
        rw [List.getLast?_cons_cons, List.getLast?_cons_cons]
        exact hl
  have hsplit : pySplitOnce ' ' (c :: ' ' :: p) = [[c], p] := by
    simp [pySplitOnce, splitOnceAux, hcs]
  have hstripc : pyStrip [c] = [c] := by
    apply pyStrip_eq_self <;> simp [Option.all, hc]
  have hstripp : pyStrip p = p := pyStrip_eq_self p hh hl
  simp [parseLine, hstrip, hsplit, hstripc, hstripp]

theorem add_A (st : Status) (p : PyStr) :
    st.add 'A' p = Except.ok { st with added := setInsert st.added p } := rfl

theorem add_M (st : Status) (p : PyStr) :
    st.add 'M' p = Except.ok { st with modified := setInsert st.modified p } := rfl

theorem add_D (st : Status) (p : PyStr) :
    st.add 'D' p = Except.ok { st with deleted := setInsert st.deleted p } := rfl

theorem add_Q (st : Status) (p : PyStr) :
    st.add '?' p = Except.ok { st with untracked := setInsert st.untracked p } := rfl

theorem sectionLines_cons (c : Char) (p : PyStr) (ps : List PyStr) :
    sectionLines c (p :: ps) = (c :: ' ' :: p) :: sectionLines c ps := rfl

theorem parseLines_secA : ∀ (ps : List PyStr) (st : Status),
    (∀ p ∈ ps, goodPath p) → (st.added ++ ps).Nodup →
    parseLines st (sectionLines 'A' ps) = Except.ok { st with added := st.added ++ ps } := by
  intro ps
  induction ps with
  | nil => intro st _ _; simp [sectionLines, parseLines]
  | cons p pt ih =>
    intro st hg hnd
    have hp : goodPath p := hg p (List.mem_cons_self _ _)
    have hnotmem : p ∉ st.added := by
      rw [List.nodup_append] at hnd
      exact fun hmem => hnd.2.2 hmem (List.mem_cons_self _ _)
    rw [sectionLines_cons, parseLines, parseLine_cat st 'A' p (by decide) hp, add_A]
    simp only [setInsert, if_neg hnotmem]
    rw [ih { st with added := st.added ++ [p] }
      (fun q hq => hg q (List.mem_cons_of_mem _ hq))
      (by simpa [List.append_assoc] using hnd)]
    simp [List.append_assoc]

theorem parseLines_secM : ∀ (ps : List PyStr) (st : Status),
    (∀ p ∈ ps, goodPath p) → (st.modified ++ ps).Nodup →
    parseLines st (sectionLines 'M' ps) =
      Except.ok { st with modified := st.modified ++ ps } := by
  intro ps
  induction ps with
  | nil => intro st _ _; simp [sectionLines, parseLines]
  | cons p pt ih =>
    intro st hg hnd
    have hp : goodPath p := hg p (List.mem_cons_self _ _)
    have hnotmem : p ∉ st.modified := by
      rw [List.nodup_append] at hnd
      exact fun hmem => hnd.2.2 hmem (List.mem_cons_self _ _)
    rw [sectionLines_cons, parseLines, parseLine_cat st 'M' p (by decide) hp, add_M]
    simp only [setInsert, if_neg hnotmem]
    rw [ih { st with modified := st.modified ++ [p] }
      (fun q hq => hg q (List.mem_cons_of_mem _ hq))
      (by simpa [List.append_assoc] using hnd)]
    simp [List.append_assoc]

theorem parseLines_secD : ∀ (ps : List PyStr) (st : Status),
    (∀ p ∈ ps, goodPath p) → (st.deleted ++ ps).Nodup →
    parseLines st (sectionLines 'D' ps) =
      Except.ok { st with deleted := st.deleted ++ ps } := by
  intro ps
  induction ps with
  | nil => intro st _ _; simp [sectionLines, parseLines]
  | cons p pt ih =>
    intro st hg hnd
    have hp : goodPath p := hg p (List.mem_cons_self _ _)
    have hnotmem : p ∉ st.deleted := by
      rw [List.nodup_append] at hnd
      exact fun hmem => hnd.2.2 hmem (List.mem_cons_self _ _)
    rw [sectionLines_cons, parseLines, parseLine_cat st 'D' p (by decide) hp, add_D]
    simp only [setInsert, if_neg hnotmem]
    rw [ih { st with deleted := st.deleted ++ [p] }
      (fun q hq => hg q (List.mem_cons_of_mem _ hq))
      (by simpa [List.append_assoc] using hnd)]
    simp [List.append_assoc]

theorem parseLines_secQ : ∀ (ps : List PyStr) (st : Status),
    (∀ p ∈ ps, goodPath p) → (st.untracked ++ ps).Nodup →
    parseLines st (sectionLines '?' ps) =
      Except.ok { st with untracked := st.untracked ++ ps } := by
  intro ps
  induction ps with
  | nil => intro st _ _; simp [sectionLines, parseLines]
  | cons p pt ih =>
    intro st hg hnd
    have hp : goodPath p := hg p (List.mem_cons_self _ _)
    have hnotmem : p ∉ st.untracked := by
      rw [List.nodup_append] at hnd
      exact fun hmem => hnd.2.2 hmem (List.mem_cons_self _ _)
    rw [sectionLines_cons, parseLines, parseLine_cat st '?' p (by decide) hp, add_Q]
    simp only [setInsert, if_neg hnotmem]
    rw [ih { st with untracked := st.untracked ++ [p] }
      (fun q hq => hg q (List.mem_cons_of_mem _ hq))
      (by simpa [List.append_assoc] using hnd)]
    simp [List.append_assoc]

theorem parseLines_append (l1 l2 : List PyStr) : ∀ st : Status,
    parseLines st (l1 ++ l2) =
      match parseLines st l1 with
      | Except.error e => Except.error e
      | Except.ok st2 => parseLines st2 l2 := by
  induction l1 with
  | nil => intro st; simp [parseLines]
  | cons l t ih =>
    intro st
    cases h : parseLine st l with
    | error e => simp [parseLines, List.cons_append, h]
    | ok st2 => simp [parseLines, List.cons_append, h, ih st2]

theorem nl_not_mem_line (c : Char) (hc : ¬(c = '\n')) (p : PyStr) (hp : '\n' ∉ p) :
    '\n' ∉ c :: ' ' :: p := by
  intro h
  rcases List.mem_cons.mp h with h1 | h2
  · exact hc h1.symm
  · rcases List.mem_cons.mp h2 with h3 | h4
    · simp at h3
    · exact hp h4

/-- Claim C7 (amended).  For a status with no renamed and no copied entries,
whose paths are wellformed (non-empty, newline-free, not beginning or ending
in whitespace) and duplicate-free, serializing and re-parsing yields an equal
status — so the round trip is the identity there, hence idempotent.  For a
status with a renamed or copied entry serialization raises `TypeError`
(string-tuple concatenation), so no round trip exists at all; paths with
newlines or surrounding whitespace cannot survive the line-based format
either. -/
theorem C7_roundtrip_amended (s : Status)
    (hc : s.copied = []) (hr : s.renamed = [])
    (hga : ∀ p ∈ s.added, goodPath p) (hgm : ∀ p ∈ s.modified, goodPath p)
    (hgd : ∀ p ∈ s.deleted, goodPath p) (hgu : ∀ p ∈ s.untracked, goodPath p)
    (hna : s.added.Nodup) (hnm : s.modified.Nodup) (hnd : s.deleted.Nodup)
    (hnu : s.untracked.Nodup) :
    ∃ txt, Status.str s = Except.ok txt ∧ parseStatus s.base_path txt = Except.ok s := by
  obtain ⟨bp, a, m, co, r, d, u⟩ := s
  dsimp only at hc hr hga hgm hgd hgu hna hnm hnd hnu
  subst hc; subst hr
  refine ⟨_, rfl, ?_⟩
  have hNL : ∀ l ∈ (sectionLines 'A' a ++ sectionLines 'M' m ++ sectionLines 'D' d ++
      sectionLines '?' u), '\n' ∉ l := by
    intro l hl
    simp only [List.mem_append, sectionLines, List.mem_map] at hl
    rcases hl with ((⟨p, hp, rfl⟩ | ⟨p, hp, rfl⟩) | ⟨p, hp, rfl⟩) | ⟨p, hp, rfl⟩
    · exact nl_not_mem_line 'A' (by decide) p (hga p hp).2.1
    · exact nl_not_mem_line 'M' (by decide) p (hgm p hp).2.1
    · exact nl_not_mem_line 'D' (by decide) p (hgd p hp).2.1
    · exact nl_not_mem_line '?' (by decide) p (hgu p hp).2.1
  have htxt : sectionText 'A' a ++ sectionText 'M' m ++ [] ++ [] ++ sectionText 'D' d ++
      sectionText '?' u =
      (((sectionLines 'A' a ++ sectionLines 'M' m ++ sectionLines 'D' d ++
        sectionLines '?' u).map (fun l => l ++ ['\n'])).flatten) := by
    simp [sectionText, List.map_append, List.flatten_append, List.append_assoc]
  have hsplit : pySplitNL (sectionText 'A' a ++ sectionText 'M' m ++ [] ++ [] ++
      sectionText 'D' d ++ sectionText '?' u) =
      sectionLines 'A' a ++ (sectionLines 'M' m ++ (sectionLines 'D' d ++
        (sectionLines '?' u ++ [[]]))) := by
    unfold pySplitNL
    rw [htxt, splitNL_flatten _ hNL]
    simp [List.append_assoc]
  have s1 : parseLines (Status.empty bp) (sectionLines 'A' a) =
      Except.ok ⟨bp, a, [], [], [], [], []⟩ := by
    simpa [Status.empty] using
      parseLines_secA a (Status.empty bp) hga (by simpa [Status.empty] using hna)
  have s2 : parseLines ⟨bp, a, [], [], [], [], []⟩ (sectionLines 'M' m) =
      Except.ok ⟨bp, a, m, [], [], [], []⟩ := by
    simpa using parseLines_secM m ⟨bp, a, [], [], [], [], []⟩ hgm (by simpa using hnm)
  have s3 : parseLines ⟨bp, a, m, [], [], [], []⟩ (sectionLines 'D' d) =
      Except.ok ⟨bp, a, m, [], [], d, []⟩ := by
    simpa using parseLines_secD d ⟨bp, a, m, [], [], [], []⟩ hgd (by simpa using hnd)
  have s4 : parseLines ⟨bp, a, m, [], [], d, []⟩ (sectionLines '?' u) =
      Except.ok ⟨bp, a, m, [], [], d, u⟩ := by
    simpa using parseLines_secQ u ⟨bp, a, m, [], [], d, []⟩ hgu (by simpa using hnu)
  have s5 : parseLines ⟨bp, a, m, [], [], d, u⟩ [[]] =
      Except.ok ⟨bp, a, m, [], [], d, u⟩ := rfl
  unfold parseStatus
  rw [hsplit, parseLines_append, s1]
  simp only []
  rw [parseLines_append, s2]
  simp only []
  rw [parseLines_append, s3]
  simp only []
  rw [parseLines_append, s4]
  simp only []
  exact s5

/-- Witness for C7_roundtrip_amended at a concrete wellformed status. -/
theorem C7_roundtrip_witness :
    ∃ txt, Status.str statusRT = Except.ok txt ∧
      parseStatus statusRT.base_path txt = Except.ok statusRT :=
  C7_roundtrip_amended statusRT rfl rfl (by decide) (by decide) (by decide) (by decide)
    (by decide) (by decide) (by decide) (by decide)

/-- Counterexample to claim C7 as stated: for the status whose renamed set
holds the single pair (old.txt, new.txt), stringification raises `TypeError`
(the source concatenates the category character with a tuple), so no
serialize-then-reparse round trip exists for renamed or copied entries. -/
theorem C7_roundtrip_counterexample :
    Status.str statusRen = Except.error PyErr.typeError ∧
    ¬ ∃ txt, Status.str statusRen = Except.ok txt ∧
        parseStatus statusRen.base_path txt = Except.ok statusRen := by
  refine ⟨rfl, ?_⟩
  rintro ⟨txt, h, -⟩
  rw [show Status.str statusRen = Except.error PyErr.typeError from rfl] at h
  exact Except.noConfusion h
